import Mathlib

/-!
Verification of the IP-Adapter cross-attention injection module
(`ip_adapter.py`) against its specification.

The embedding models tensors as nested lists of rationals (exact arithmetic;
floating-point rounding is outside the model), `torch.nn.Linear` weights as
matrices, and the ComfyUI patch objects as explicit records.  Fallible code
paths (Python `ZeroDivisionError` / `IndexError`) are modelled with `Option`.
-/

set_option autoImplicit false

abbrev Vec : Type := List ℚ
abbrev Mat : Type := List (List ℚ)
abbrev T3 : Type := List (List (List ℚ))

/-- The two dtypes offered by the loader node (`"dtype": (["fp16", "fp32"], )`). -/
inductive DType where
  | fp16
  | fp32
deriving DecidableEq

/-- Dot product of two vectors (truncating to the shorter, as `zipWith` does). -/
def dot (a b : Vec) : ℚ := (List.zipWith (fun x y => x * y) a b).sum

/-- Model of `torch.nn.Linear` without bias: `y = W x`, one output per weight row. -/
def linearNB (w : Mat) (x : Vec) : Vec := w.map (fun row => dot row x)

/-- Model of `torch.nn.Linear` with bias: `y = W x + b`. -/
def linear (w : Mat) (b : Vec) (x : Vec) : Vec :=
  List.zipWith (fun y c => y + c) (w.map (fun row => dot row x)) b

/-- Apply a bias-free linear layer to every token vector of a
(batch, tokens, channels) tensor, as calling an `nn.Linear` on a 3-D input does. -/
def linT3 (w : Mat) (x : T3) : T3 := x.map (fun seq => seq.map (fun tok => linearNB w tok))

/-- Elementwise addition of vectors (`zipWith`, truncating). -/
def vadd (a b : Vec) : Vec := List.zipWith (fun p q => p + q) a b

/-- Elementwise addition of matrices. -/
def madd (a b : Mat) : Mat := List.zipWith vadd a b

/-- Elementwise addition of 3-D tensors, modelling `out + ip_out * weight`. -/
def tadd (a b : T3) : T3 := List.zipWith madd a b

/-- Elementwise product of vectors. -/
def vmul (a b : Vec) : Vec := List.zipWith (fun p q => p * q) a b

/-- Elementwise product of matrices. -/
def mmul (a b : Mat) : Mat := List.zipWith vmul a b

/-- Elementwise product of 3-D tensors, modelling `ip_out * mask_downsample`. -/
def tmul (a b : T3) : T3 := List.zipWith mmul a b

/-- Tensor-times-scalar, modelling `ip_out * weight`. -/
def tsmul (w : ℚ) (a : T3) : T3 :=
  a.map (fun m => m.map (fun row => row.map (fun p => p * w)))

/-- Shape component `t.shape[0]` of a (batch, tokens, channels) tensor. -/
def dim0 (t : T3) : Nat := t.length

/-- Shape component `t.shape[1]` of a (batch, tokens, channels) tensor. -/
def dim1 (t : T3) : Nat := (t.headD []).length

/-- Shape component `t.shape[2]` of a (batch, tokens, channels) tensor. -/
def dim2 (t : T3) : Nat := ((t.headD []).headD []).length

/-- Constant (b, n, c) tensor. -/
def constT (b n c : Nat) (q : ℚ) : T3 :=
  List.replicate b (List.replicate n (List.replicate c q))

/-- Boolean shape check: `t` is a well-formed (b, n, c) tensor. -/
def hasDims (t : T3) (b n c : Nat) : Bool :=
  t.length == b &&
    t.all (fun r => r.length == n && r.all (fun x => x.length == c))

/-- Floor square root, modelling Python's `int(x ** (1/2))` on a nonnegative
integer (exact for the integer inputs the source feeds it). -/
def intSqrt (n : Nat) : Nat :=
  (((List.range (n + 1)).takeWhile (fun k => k * k ≤ n)).length) - 1

-- attention_channels of input, output, middle  (ip_adapter.py lines 15-16)
def SD_V12_CHANNELS : List Nat :=
  List.replicate 4 320 ++ List.replicate 4 640 ++ List.replicate 4 1280 ++
  List.replicate 6 1280 ++ List.replicate 6 640 ++ List.replicate 6 320 ++
  List.replicate 2 1280

def SD_XL_CHANNELS : List Nat :=
  List.replicate 8 640 ++ List.replicate 40 1280 ++ List.replicate 60 1280 ++
  List.replicate 12 640 ++ List.replicate 20 1280

/-- patch_name of sdv1-2: ("input" or "output" or "middle", block_id);
patch_name of sdxl: ("input" or "output" or "middle", block_id, transformer_index). -/
inductive LayerKey where
  | sd (block : String) (block_id : Nat)
  | xl (block : String) (block_id : Nat) (transformer_index : Nat)
deriving DecidableEq

/-- Assign the running `patch_kwargs["number"]` counter to each key in turn,
returning the keyed list and the counter value after the loop. -/
def assignNumbers : List LayerKey → Nat → List (LayerKey × Nat) × Nat
  | [], start => ([], start)
  | k :: ks, start =>
      let rest := assignNumbers ks (start + 1)
      ((k, start) :: rest.1, rest.2)

/-- The non-SDXL branch of `IPAdapter.adapter` (ip_adapter.py lines 195-202):
input block ids [1,2,4,5,7,8], output block ids [3..11], one middle patch.
The counter is not incremented after the middle patch (the loop ends there). -/
def enumerateV12 : List (LayerKey × Nat) :=
  let inp := assignNumbers ([1, 2, 4, 5, 7, 8].map (LayerKey.sd "input")) 0
  let outp := assignNumbers ([3, 4, 5, 6, 7, 8, 9, 10, 11].map (LayerKey.sd "output")) inp.2
  inp.1 ++ outp.1 ++ [(LayerKey.sd "middle" 0, outp.2)]

/-- The SDXL branch of `IPAdapter.adapter` (ip_adapter.py lines 203-216):
input ids [4,5,7,8] each over `range(2) if id in [4, 5] else range(10)`,
output ids `range(6)` each over `range(2) if id in [3, 4, 5] else range(10)`,
middle over `range(10)`. -/
def enumerateXL : List (LayerKey × Nat) :=
  let inpKeys := [4, 5, 7, 8].flatMap (fun id =>
    (if id ∈ [4, 5] then List.range 2 else List.range 10).map (LayerKey.xl "input" id))
  let outKeys := (List.range 6).flatMap (fun id =>
    (if id ∈ [3, 4, 5] then List.range 2 else List.range 10).map (LayerKey.xl "output" id))
  let midKeys := (List.range 10).map (LayerKey.xl "middle" 0)
  let inp := assignNumbers inpKeys 0
  let outp := assignNumbers outKeys inp.2
  let mid := assignNumbers midKeys outp.2
  inp.1 ++ outp.1 ++ mid.1

/-- Which schedule `IPAdapter.adapter` walks: `self.sdxl = self.cross_attention_dim == 2048`. -/
def installKeys (cross_attention_dim : Nat) : List (LayerKey × Nat) :=
  if cross_attention_dim = 2048 then enumerateXL else enumerateV12

/-- Claim-side list of V1_2 coordinates, written from the claim's words:
input ids 1,2,4,5,7,8, then output ids 3..11, then one middle layer. -/
def claimKeysV12 : List LayerKey :=
  ([1, 2, 4, 5, 7, 8].map (LayerKey.sd "input")) ++
  ([3, 4, 5, 6, 7, 8, 9, 10, 11].map (LayerKey.sd "output")) ++
  [LayerKey.sd "middle" 0]

/-- Claim-side list of XL coordinates, written from the claim's words:
input ids 4,5,7,8 with transformer depths 2,2,10,10, then output ids 0..5 with
depths 10,10,10,2,2,2, then middle with depth 10. -/
def claimKeysXL : List LayerKey :=
  ((List.zip [4, 5, 7, 8] [2, 2, 10, 10]).flatMap (fun p =>
    (List.range p.2).map (LayerKey.xl "input" p.1))) ++
  ((List.zip [0, 1, 2, 3, 4, 5] [10, 10, 10, 2, 2, 2]).flatMap (fun p =>
    (List.range p.2).map (LayerKey.xl "output" p.1))) ++
  ((List.range 10).map (LayerKey.xl "middle" 0))

/-- C1: for both supported variants the installer enumerates the fixed layer
coordinates in input-then-output-then-middle order, assigning sequential layer
numbers 0..15 (V1_2) resp. 0..69 (XL), and the coordinate count equals the
number of (key,value) projector pairs in the variant's channel schedule
(`len(SD_V12_CHANNELS)//2 = 16`, `len(SD_XL_CHANNELS)//2 = 70`). -/
theorem C1_enumeration_order_and_counts :
    enumerateV12.map Prod.fst = claimKeysV12 ∧
    enumerateV12.map Prod.snd = List.range 16 ∧
    enumerateV12.length = SD_V12_CHANNELS.length / 2 ∧
    SD_V12_CHANNELS.length / 2 = 16 ∧
    enumerateXL.map Prod.fst = claimKeysXL ∧
    enumerateXL.map Prod.snd = List.range 70 ∧
    enumerateXL.length = SD_XL_CHANNELS.length / 2 ∧
    SD_XL_CHANNELS.length / 2 = 70 := by
  set_option maxRecDepth 4000 in decide

/-- Channel selection of `To_KV.__init__`:
`channels = SD_XL_CHANNELS if cross_attention_dim == 2048 else SD_V12_CHANNELS`. -/
def To_KV_channels (cross_attention_dim : Nat) : List Nat :=
  if cross_attention_dim = 2048 then SD_XL_CHANNELS else SD_V12_CHANNELS

/-- Model of `To_KV.__init__`: one bias-free `Linear(cross_attention_dim, channel)` per
schedule entry.  Torch's random initialization is abstracted to zeros; only the
shape (`channel` rows of width `cross_attention_dim`) is meaningful here. -/
def To_KV_init (cross_attention_dim : Nat) : List Mat :=
  (To_KV_channels cross_attention_dim).map
    (fun channel => List.replicate channel (List.replicate cross_attention_dim (0 : ℚ)))

/-- Model of `To_KV.load_state_dict`: `for i, key in enumerate(state_dict.keys()):
self.to_kvs[i].weight.data = state_dict[key]`.  Each serialized tensor replaces
the i-th projector's weight positionally; assigning `.data` performs no shape
check, and the only possible failure is an `IndexError` (`none`) when the
serialized state holds more tensors than there are projectors. -/
def loadPositional : List Mat → List Mat → Option (List Mat)
  | kvs, [] => some kvs
  | [], _ :: _ => none
  | _ :: kvs, w :: ws => (loadPositional kvs ws).map (fun r => w :: r)

/-- Construction `self.ip_layers = To_KV(cross_attention_dim)` followed by
`self.ip_layers.load_state_dict(state_dict["ip_adapter"])`: the serialized
tensors are the values of the `ip_adapter` mapping in iteration order. -/
def loadIPLayers (cross_attention_dim : Nat) (state_tensors : List Mat) : Option (List Mat) :=
  loadPositional (To_KV_init cross_attention_dim) state_tensors

theorem loadPositional_eq_append (kvs sd : List Mat) (h : sd.length ≤ kvs.length) :
    loadPositional kvs sd = some (sd ++ kvs.drop sd.length) := by
  induction sd generalizing kvs with
  | nil => simp [loadPositional]
  | cons w ws ih =>
    cases kvs with
    | nil => simp at h
    | cons k ks =>
      simp only [List.length_cons, Nat.add_le_add_iff_right] at h
      simp [loadPositional, ih ks h]

theorem loadPositional_overflow (kvs sd : List Mat) (h : kvs.length < sd.length) :
    loadPositional kvs sd = none := by
  induction sd generalizing kvs with
  | nil => simp at h
  | cons w ws ih =>
    cases kvs with
    | nil => rfl
    | cons k ks =>
      simp only [List.length_cons, Nat.add_lt_add_iff_right] at h
      simp [loadPositional, ih ks h]

/-- C2 counterexample: a serialized state whose first projection has output
width 1 — disagreeing with the V1_2 channel schedule, which expects width 320
at position 0 — is loaded without any error being raised. -/
theorem C2_counterexample :
    (loadIPLayers 768 [[[5]]]).isSome = true ∧
    ([[(5 : ℚ)]].length ≠ SD_V12_CHANNELS.headD 0) := by
  constructor
  · rw [loadIPLayers, loadPositional_eq_append]
    · rfl
    · show 1 ≤ (To_KV_init 768).length
      simp only [To_KV_init, To_KV_channels, List.length_map, SD_V12_CHANNELS,
        List.length_append, List.length_replicate]
      decide
  · decide

/-- C2 amended: loading populates projector weights strictly by positional
iteration order of the serialized state — entry i replaces projector i and the
remaining projectors keep their prior weights — with no shape validation at
all; the only failure is an excess of serialized tensors over projectors
(a Python `IndexError`), never a width mismatch. -/
theorem C2_positional_load_no_shape_check (kvs sd : List Mat) :
    (sd.length ≤ kvs.length → loadPositional kvs sd = some (sd ++ kvs.drop sd.length)) ∧
    (kvs.length < sd.length → loadPositional kvs sd = none) :=
  ⟨loadPositional_eq_append kvs sd, loadPositional_overflow kvs sd⟩

theorem C2_witness :
    ([[[(9 : ℚ)]]] : List Mat).length ≤ ([[[1]], [[2]]] : List Mat).length ∧
    loadPositional [[[1]], [[2]]] [[[9]]] = some [[[9]], [[2]]] :=
  ⟨by decide, (C2_positional_load_no_shape_check [[[1]], [[2]]] [[[9]]]).1 (by decide)⟩

/-- C3 counterexample: cross-attention dimensionality 512 maps to neither
claimed variant value (768/1024/2048), yet the loader accepts the checkpoint,
silently treating it as V1_2; no UnsupportedVariant rejection exists. -/
theorem C3_counterexample :
    (loadIPLayers 512 []).isSome = true ∧ ¬(512 = 768 ∨ 512 = 1024 ∨ 512 = 2048) := by
  constructor
  · rw [loadIPLayers, loadPositional_eq_append _ _ (Nat.zero_le _)]
    rfl
  · decide

/-- C3 amended: there is no UnsupportedVariant check — dimensionality 2048
selects the XL schedule and every other cross-attention dimensionality
(not just 768/1024) is treated as V1_2 and accepted by the loader. -/
theorem C3_no_unsupported_variant_check (cad : Nat) (h : cad ≠ 2048) :
    To_KV_channels cad = SD_V12_CHANNELS ∧ (loadIPLayers cad []).isSome = true := by
  refine ⟨by simp [To_KV_channels, h], ?_⟩
  rw [loadIPLayers, loadPositional_eq_append _ _ (Nat.zero_le _)]
  rfl

theorem C3_witness :
    (512 : Nat) ≠ 2048 ∧
    (To_KV_channels 512 = SD_V12_CHANNELS ∧ (loadIPLayers 512 []).isSome = true) :=
  ⟨by decide, C3_no_unsupported_variant_check 512 (by decide)⟩

/-- C6 counterexample: for cross_attention_dim = 768 the installer walks the
V1_2 (non-XL) schedule, which enumerates 16 coordinates — not the 8 claimed. -/
theorem C6_counterexample :
    (installKeys 768).length = 16 ∧ (installKeys 768).length ≠ 8 := by
  set_option maxRecDepth 2000 in decide

/-- C6 amended: for a checkpoint with cross_attention_dim = 768 the installer
enumerates exactly 16 layer coordinates in input→output→middle order with
sequential numbers 0..15; the count equals `len(SD_V12_CHANNELS)//2 = 16`
(independent of how many ip_adapter tensors the checkpoint stores — with 16
stored weights it equals `len(weights)`, not `len(weights)//2`). -/
theorem C6_v12_enumerates_sixteen :
    (installKeys 768).map Prod.fst = claimKeysV12 ∧
    (installKeys 768).map Prod.snd = List.range 16 ∧
    (installKeys 768).length = SD_V12_CHANNELS.length / 2 ∧
    (installKeys 768).length = 16 := by
  set_option maxRecDepth 2000 in decide

/-- A tensor with its dtype, as far as the patch observes it
(`org_dtype = n.dtype`; values are exact rationals in this model). -/
structure Tensor where
  data : T3
  dtype : DType
deriving DecidableEq

/-- Model of `CrossAttentionPatch.__init__(weight, ipadapter, dtype, number, cond,
uncond, mask=None)`.  An `ipadapter` is observed by the patch only through
`ipadapter.ip_layers.to_kvs`, so it is modelled as that list of weight
matrices. -/
structure CrossAttentionPatch where
  weights : List ℚ
  ipadapters : List (List Mat)
  conds : List T3
  unconds : List T3
  dtype : DType
  number : Nat
  masks : List (Option Mat)
deriving DecidableEq

def CrossAttentionPatch.init (weight : ℚ) (ipadapter : List Mat) (dtype : DType)
    (number : Nat) (cond uncond : T3) (mask : Option Mat) : CrossAttentionPatch :=
  { weights := [weight]
    ipadapters := [ipadapter]
    conds := [cond]
    unconds := [uncond]
    dtype := dtype
    number := number
    masks := [mask] }

/-- Model of `CrossAttentionPatch.set_new_condition(weight, ipadapter, cond, uncond,
dtype, number, mask=None)`: appends to the five per-bundle lists and overwrites
the shared dtype; the `number` argument is accepted but never stored. -/
def CrossAttentionPatch.set_new_condition (st : CrossAttentionPatch) (weight : ℚ)
    (ipadapter : List Mat) (cond uncond : T3) (dtype : DType) (number : Nat)
    (mask : Option Mat) : CrossAttentionPatch :=
  { st with
    weights := st.weights ++ [weight]
    ipadapters := st.ipadapters ++ [ipadapter]
    conds := st.conds ++ [cond]
    unconds := st.unconds ++ [uncond]
    masks := st.masks ++ [mask]
    dtype := dtype }

/-- One entry of `zip(self.weights, self.conds, self.unconds, self.ipadapters,
self.masks)`. -/
structure Bundle where
  weight : ℚ
  cond : T3
  uncond : T3
  kvs : List Mat
  mask : Option Mat
deriving DecidableEq

/-- Python `zip` of the five per-bundle lists (truncating to the shortest, as Python's
`zip` does). -/
def zipBundles : List ℚ → List T3 → List T3 → List (List Mat) → List (Option Mat) → List Bundle
  | w :: ws, c :: cs, u :: us, a :: more, m :: ms =>
      ⟨w, c, u, a, m⟩ :: zipBundles ws cs us more ms
  | _, _, _, _, _ => []

/-- Model of `cond.repeat(batch_prompt, 1, 1)`: tile a tensor along the batch
dimension. -/
def repeatBatch (k : Nat) (x : T3) : T3 := (List.replicate k x).flatten

/-- Model of `torch.cat([(cond.repeat(bp,1,1), uncond.repeat(bp,1,1))[i] for i in
cond_or_uncond], dim=0)`.  The host supplies selector flags in {0, 1}; flag 0
picks the first tuple component (cond), any other flag the second (an index
outside the pair would raise IndexError in the source). -/
def selectTokens (cond uncond : T3) (batch_prompt : Nat) (flags : List Nat) : T3 :=
  (flags.map (fun i =>
    if i = 0 then repeatBatch batch_prompt cond else repeatBatch batch_prompt uncond)).flatten

/-- Model of `F.interpolate(mask.unsqueeze(0).unsqueeze(0), scale_factor=1/8/dsr,
mode="nearest").squeeze(0)` followed by `.view(1,-1,1).repeat(B, 1, C)`:
the H×W mask is shrunk to (H/(8·dsr))×(W/(8·dsr)) by nearest-neighbour
sampling (source index = floor(dst·in/out)), flattened to one value per
attention token, and broadcast over batch and channels. -/
def maskDownsample (m : Mat) (dsr B C : Nat) : T3 :=
  let H := m.length
  let W := (m.headD []).length
  let Hd := H / (8 * dsr)
  let Wd := W / (8 * dsr)
  let flat := (List.range Hd).flatMap (fun i =>
    (List.range Wd).map (fun j => (m.getD (i * H / Hd) []).getD (j * W / Wd) 0))
  List.replicate B (flat.map (fun v => List.replicate C v))

/-- Model of `CrossAttentionPatch.__call__(n, context_attn2, value_attn2,
extra_options)`.  The scaled-dot-product attention kernel (ip_adapter.py
`attention`, lines 33-48) is an external primitive whose irrational softmax
arithmetic lies outside the rational model, so it is a parameter `attn`
(closing over `extra_options`); the ambient `cond_or_uncond` selector, read
from the caller's frame in the source, is passed explicitly.  `none` models the
two Python `ZeroDivisionError` sites: an empty selector
(`b // len(cond_or_uncond)`) and a zero downsample rate
(`1/8/down_sample_rate`). -/
def CrossAttentionPatch.call (attn : T3 → T3 → T3 → T3) (st : CrossAttentionPatch)
    (n : Tensor) (context_attn2 value_attn2 : T3) (cond_or_uncond : List Nat) :
    Option Tensor :=
  let org_dtype := n.dtype
  if cond_or_uncond.length = 0 then none
  else
    let q := n.data
    let batch_prompt := q.length / cond_or_uncond.length
    let out0 := attn q context_attn2 value_attn2
    let step := fun (out : T3) (bd : Bundle) =>
      let uncond_cond := selectTokens bd.cond bd.uncond batch_prompt cond_or_uncond
      let ip_k := linT3 (bd.kvs.getD (st.number * 2) []) uncond_cond
      let ip_v := linT3 (bd.kvs.getD (st.number * 2 + 1) []) uncond_cond
      let ip_out := attn q ip_k ip_v
      match bd.mask with
      | none => some (tadd out (tsmul bd.weight ip_out))
      | some m =>
          let mask_size := m.length * (m.headD []).length
          let down_sample_rate := intSqrt (mask_size / 64 / dim1 out)
          if down_sample_rate = 0 then none
          else some (tadd out (tsmul bd.weight
            (tmul ip_out (maskDownsample m down_sample_rate (dim0 out) (dim2 out)))))
    ((zipBundles st.weights st.conds st.unconds st.ipadapters st.masks).foldlM step out0).map
      (fun out => ⟨out, org_dtype⟩)

/-- Argument tuple of one `set_new_condition` call. -/
structure CondArgs where
  weight : ℚ
  ipadapter : List Mat
  cond : T3
  uncond : T3
  dtype : DType
  number : Nat
  mask : Option Mat
deriving DecidableEq

/-- Merge step of `set_model_patch_replace`: stack one more bundle onto an
existing patch. -/
def applyCond (st : CrossAttentionPatch) (a : CondArgs) : CrossAttentionPatch :=
  st.set_new_condition a.weight a.ipadapter a.cond a.uncond a.dtype a.number a.mask

theorem foldl_applyCond_lengths (args : List CondArgs) (st : CrossAttentionPatch) :
    (args.foldl applyCond st).weights.length = st.weights.length + args.length ∧
    (args.foldl applyCond st).ipadapters.length = st.ipadapters.length + args.length ∧
    (args.foldl applyCond st).conds.length = st.conds.length + args.length ∧
    (args.foldl applyCond st).unconds.length = st.unconds.length + args.length ∧
    (args.foldl applyCond st).masks.length = st.masks.length + args.length := by
  induction args generalizing st with
  | nil => simp
  | cons a rest ih =>
    have h := ih (applyCond st a)
    simp only [List.foldl_cons, List.length_cons]
    simp only [applyCond, CrossAttentionPatch.set_new_condition, List.length_append,
      List.length_cons, List.length_nil] at h ⊢
    omega

/-- C8: after construction and after every sequence of `set_new_condition`
calls (append-only stacking that never displaces previously registered
bundles), the five per-bundle lists — weights, adapters, conditional tokens,
unconditional tokens, masks — have equal length. -/
theorem C8_bundle_lists_equal_length (weight : ℚ) (ipadapter : List Mat) (dtype : DType)
    (number : Nat) (cond uncond : T3) (mask : Option Mat) (args : List CondArgs) :
    ((args.foldl applyCond
        (CrossAttentionPatch.init weight ipadapter dtype number cond uncond mask)).weights.length =
      (args.foldl applyCond
        (CrossAttentionPatch.init weight ipadapter dtype number cond uncond mask)).ipadapters.length) ∧
    ((args.foldl applyCond
        (CrossAttentionPatch.init weight ipadapter dtype number cond uncond mask)).ipadapters.length =
      (args.foldl applyCond
        (CrossAttentionPatch.init weight ipadapter dtype number cond uncond mask)).conds.length) ∧
    ((args.foldl applyCond
        (CrossAttentionPatch.init weight ipadapter dtype number cond uncond mask)).conds.length =
      (args.foldl applyCond
        (CrossAttentionPatch.init weight ipadapter dtype number cond uncond mask)).unconds.length) ∧
    ((args.foldl applyCond
        (CrossAttentionPatch.init weight ipadapter dtype number cond uncond mask)).unconds.length =
      (args.foldl applyCond
        (CrossAttentionPatch.init weight ipadapter dtype number cond uncond mask)).masks.length) := by
  have h := foldl_applyCond_lengths args
    (CrossAttentionPatch.init weight ipadapter dtype number cond uncond mask)
  simp only [CrossAttentionPatch.init, List.length_cons, List.length_nil] at h ⊢
  omega

/-- C9: one `set_new_condition` call grows each of the five per-bundle lists by
exactly one element, leaves the patch's sequential layer number unchanged, and
overwrites the patch's single shared dtype field with the newly stacked
adapter's dtype — the one field `__call__` (line 275) reads to enter autocast
for all stacked adapters' passes at that layer. -/
theorem C9_set_new_condition_frame (st : CrossAttentionPatch) (weight : ℚ)
    (ipadapter : List Mat) (cond uncond : T3) (dtype : DType) (number : Nat)
    (mask : Option Mat) :
    (st.set_new_condition weight ipadapter cond uncond dtype number mask).weights.length =
        st.weights.length + 1 ∧
    (st.set_new_condition weight ipadapter cond uncond dtype number mask).ipadapters.length =
        st.ipadapters.length + 1 ∧
    (st.set_new_condition weight ipadapter cond uncond dtype number mask).conds.length =
        st.conds.length + 1 ∧
    (st.set_new_condition weight ipadapter cond uncond dtype number mask).unconds.length =
        st.unconds.length + 1 ∧
    (st.set_new_condition weight ipadapter cond uncond dtype number mask).masks.length =
        st.masks.length + 1 ∧
    (st.set_new_condition weight ipadapter cond uncond dtype number mask).number = st.number ∧
    (st.set_new_condition weight ipadapter cond uncond dtype number mask).dtype = dtype := by
  simp [CrossAttentionPatch.set_new_condition]

theorem tsmul_one (x : T3) : tsmul 1 x = x := by
  simp [tsmul, mul_one]

/-- Closed form of `CrossAttentionPatch.call` on a freshly constructed patch
holding a single adapter bundle. -/
theorem call_init_eq (attn : T3 → T3 → T3 → T3) (w : ℚ) (kvs : List Mat) (dt : DType)
    (num : Nat) (cond uncond : T3) (mask : Option Mat) (n : Tensor) (ck cv : T3)
    (cu : List Nat) (hcu : cu ≠ []) :
    CrossAttentionPatch.call attn
        (CrossAttentionPatch.init w kvs dt num cond uncond mask) n ck cv cu =
      (let q := n.data
       let uc := selectTokens cond uncond (q.length / cu.length) cu
       let ip_out := attn q (linT3 (kvs.getD (num * 2) []) uc)
                            (linT3 (kvs.getD (num * 2 + 1) []) uc)
       let out0 := attn q ck cv
       match mask with
       | none => some (⟨tadd out0 (tsmul w ip_out), n.dtype⟩ : Tensor)
       | some m =>
           let dsr := intSqrt (m.length * (m.headD []).length / 64 / dim1 out0)
           if dsr = 0 then none
           else some ⟨tadd out0 (tsmul w
             (tmul ip_out (maskDownsample m dsr (dim0 out0) (dim2 out0)))), n.dtype⟩) := by
  cases mask with
  | none =>
    simp [CrossAttentionPatch.call, CrossAttentionPatch.init, zipBundles, List.foldlM, hcu]
  | some m =>
    simp [CrossAttentionPatch.call, CrossAttentionPatch.init, zipBundles, List.foldlM, hcu]
    split_ifs <;> simp

/-- C4: for a single registered adapter bundle with weight = 1 and mask = None,
the patch output is the baseline attention over (query, context_key,
context_value) plus one adapter attention pass of the query against the
bundle's projected key/value — keys from `to_kvs[2*number]`, values from
`to_kvs[2*number+1]` applied to the cond/uncond-selected tokens — and the
result carries the original input dtype. -/
theorem C4_single_adapter_weight_one (attn : T3 → T3 → T3 → T3) (kvs : List Mat)
    (dt : DType) (num : Nat) (cond uncond : T3) (n : Tensor) (ck cv : T3)
    (cu : List Nat) (hcu : cu ≠ []) :
    CrossAttentionPatch.call attn
        (CrossAttentionPatch.init 1 kvs dt num cond uncond none) n ck cv cu =
      some ⟨tadd (attn n.data ck cv)
        (attn n.data
          (linT3 (kvs.getD (num * 2) [])
            (selectTokens cond uncond (n.data.length / cu.length) cu))
          (linT3 (kvs.getD (num * 2 + 1) [])
            (selectTokens cond uncond (n.data.length / cu.length) cu))),
        n.dtype⟩ := by
  rw [call_init_eq attn 1 kvs dt num cond uncond none n ck cv cu hcu]
  simp [tsmul_one]

theorem C4_witness :
    (([0] : List Nat) ≠ []) ∧
    CrossAttentionPatch.call (fun _ _ _ => ([] : T3))
        (CrossAttentionPatch.init 1 [] DType.fp32 0 [] [] none)
        ⟨[], DType.fp32⟩ [] [] [0] = some ⟨[], DType.fp32⟩ :=
  ⟨by decide,
    C4_single_adapter_weight_one (fun _ _ _ => []) [] DType.fp32 0 [] []
      ⟨[], DType.fp32⟩ [] [] [0] (by decide)⟩

/-- C10: the masked injection path is not total — with a mask whose
`floor(mask_height*mask_width / 64 / attention_token_count)` is zero, the
computed integer downsample rate is 0 and the call fails (Python
`ZeroDivisionError` in `1/8/down_sample_rate`) instead of producing output. -/
theorem C10_mask_rate_zero_fails (attn : T3 → T3 → T3 → T3) (w : ℚ) (kvs : List Mat)
    (dt : DType) (num : Nat) (cond uncond : T3) (m : Mat) (n : Tensor) (ck cv : T3)
    (cu : List Nat) (hcu : cu ≠ [])
    (h0 : m.length * (m.headD []).length / 64 / dim1 (attn n.data ck cv) = 0) :
    CrossAttentionPatch.call attn
      (CrossAttentionPatch.init w kvs dt num cond uncond (some m)) n ck cv cu = none := by
  rw [call_init_eq attn w kvs dt num cond uncond (some m) n ck cv cu hcu]
  have hz : intSqrt 0 = 0 := by decide
  have h0' : m.length * ((List.head? m).getD []).length / 64 / dim1 (attn n.data ck cv) = 0 := by
    simpa [List.headD_eq_head?] using h0
  simp [h0', hz]

theorem C10_witness :
    (([0] : List Nat) ≠ []) ∧
    ((List.replicate 8 (List.replicate 8 (0 : ℚ))).length *
        ((List.replicate 8 (List.replicate 8 (0 : ℚ))).headD []).length / 64 /
        dim1 ((fun a _ _ => a) ([[[], []]] : T3) ([] : T3) ([] : T3))
      = 0) ∧
    CrossAttentionPatch.call (fun a _ _ => a)
      (CrossAttentionPatch.init 1 [] DType.fp32 0 [] []
        (some (List.replicate 8 (List.replicate 8 0))))
      ⟨[[[], []]], DType.fp32⟩ [] [] [0] = none :=
  ⟨by decide, by decide,
    C10_mask_rate_zero_fails (fun a _ _ => a) 1 [] DType.fp32 0 [] []
      (List.replicate 8 (List.replicate 8 0))
      ⟨[[[], []]], DType.fp32⟩ [] [] [0] (by decide) (by decide)⟩

theorem hasDims_iff (t : T3) (b nn c : Nat) :
    hasDims t b nn c = true ↔
      t.length = b ∧ ∀ mt ∈ t, mt.length = nn ∧ ∀ r ∈ mt, r.length = c := by
  simp [hasDims, List.all_eq_true, Bool.and_eq_true, beq_iff_eq]

theorem dims_of_hasDims (t : T3) (b nn c : Nat) (h : hasDims t b nn c = true)
    (hb : 0 < b) (hn : 0 < nn) : dim0 t = b ∧ dim1 t = nn ∧ dim2 t = c := by
  obtain ⟨h1, h2⟩ := (hasDims_iff t b nn c).mp h
  cases t with
  | nil => simp at h1; omega
  | cons mt rest =>
    have hmt := h2 mt (by simp)
    cases mt with
    | nil =>
      exfalso
      have := hmt.1
      simp at this
      omega
    | cons r rs =>
      have hr := hmt.2 r (by simp)
      exact ⟨h1, by simp [dim1, hmt.1], by simp [dim2, hr]⟩

theorem vmul_replicate_one (v : Vec) (c : Nat) (h : v.length = c) :
    vmul v (List.replicate c 1) = v := by
  induction v generalizing c with
  | nil => simp [vmul]
  | cons a t ih =>
    cases c with
    | zero => simp at h
    | succ c =>
      have h' : t.length = c := by simpa using h
      simp only [List.replicate_succ, vmul, List.zipWith_cons_cons, mul_one]
      simp only [vmul] at ih
      rw [ih c h']

theorem vmul_replicate_zero (v : Vec) (c : Nat) (h : v.length = c) :
    vmul v (List.replicate c 0) = List.replicate c 0 := by
  induction v generalizing c with
  | nil => cases h; simp [vmul]
  | cons a t ih =>
    cases c with
    | zero => simp at h
    | succ c =>
      have h' : t.length = c := by simpa using h
      simp only [List.replicate_succ, vmul, List.zipWith_cons_cons, mul_zero]
      simp only [vmul] at ih
      rw [ih c h']

theorem vadd_replicate_zero (v : Vec) (c : Nat) (h : v.length = c) :
    vadd v (List.replicate c 0) = v := by
  induction v generalizing c with
  | nil => simp [vadd]
  | cons a t ih =>
    cases c with
    | zero => simp at h
    | succ c =>
      have h' : t.length = c := by simpa using h
      simp only [List.replicate_succ, vadd, List.zipWith_cons_cons, add_zero]
      simp only [vadd] at ih
      rw [ih c h']

theorem mmul_replicate_one (m : Mat) (nn c : Nat) (h : m.length = nn)
    (h2 : ∀ r ∈ m, r.length = c) :
    mmul m (List.replicate nn (List.replicate c 1)) = m := by
  induction m generalizing nn with
  | nil => simp [mmul]
  | cons r t ih =>
    cases nn with
    | zero => simp at h
    | succ nn =>
      have h' : t.length = nn := by simpa using h
      simp only [List.replicate_succ, mmul, List.zipWith_cons_cons]
      simp only [mmul] at ih
      rw [vmul_replicate_one r c (h2 r (by simp)), ih nn h' (fun r hr => h2 r (by simp [hr]))]

theorem mmul_replicate_zero (m : Mat) (nn c : Nat) (h : m.length = nn)
    (h2 : ∀ r ∈ m, r.length = c) :
    mmul m (List.replicate nn (List.replicate c 0)) =
      List.replicate nn (List.replicate c 0) := by
  induction m generalizing nn with
  | nil => cases h; simp [mmul]
  | cons r t ih =>
    cases nn with
    | zero => simp at h
    | succ nn =>
      have h' : t.length = nn := by simpa using h
      simp only [List.replicate_succ, mmul, List.zipWith_cons_cons]
      simp only [mmul] at ih
      rw [vmul_replicate_zero r c (h2 r (by simp)), ih nn h' (fun r hr => h2 r (by simp [hr]))]

theorem madd_replicate_zero (m : Mat) (nn c : Nat) (h : m.length = nn)
    (h2 : ∀ r ∈ m, r.length = c) :
    madd m (List.replicate nn (List.replicate c 0)) = m := by
  induction m generalizing nn with
  | nil => simp [madd]
  | cons r t ih =>
    cases nn with
    | zero => simp at h
    | succ nn =>
      have h' : t.length = nn := by simpa using h
      simp only [List.replicate_succ, madd, List.zipWith_cons_cons]
      simp only [madd] at ih
      rw [vadd_replicate_zero r c (h2 r (by simp)), ih nn h' (fun r hr => h2 r (by simp [hr]))]

theorem tmul_const_one (x : T3) (b nn c : Nat) (h : hasDims x b nn c = true) :
    tmul x (constT b nn c 1) = x := by
  obtain ⟨h1, h2⟩ := (hasDims_iff x b nn c).mp h
  clear h
  subst h1
  induction x with
  | nil => simp [tmul, constT]
  | cons mt t ih =>
    simp only [List.length_cons, constT, List.replicate_succ, tmul, List.zipWith_cons_cons]
    have hmt := h2 mt (by simp)
    rw [mmul_replicate_one mt nn c hmt.1 hmt.2]
    simp only [tmul, constT] at ih
    rw [ih (fun mt hmt => h2 mt (by simp [hmt]))]

theorem tmul_const_zero (x : T3) (b nn c : Nat) (h : hasDims x b nn c = true) :
    tmul x (constT b nn c 0) = constT b nn c 0 := by
  obtain ⟨h1, h2⟩ := (hasDims_iff x b nn c).mp h
  clear h
  subst h1
  induction x with
  | nil => simp [tmul, constT]
  | cons mt t ih =>
    simp only [List.length_cons, constT, List.replicate_succ, tmul, List.zipWith_cons_cons]
    have hmt := h2 mt (by simp)
    rw [mmul_replicate_zero mt nn c hmt.1 hmt.2]
    simp only [tmul, constT] at ih
    rw [ih (fun mt hmt => h2 mt (by simp [hmt]))]

theorem tadd_const_zero (x : T3) (b nn c : Nat) (h : hasDims x b nn c = true) :
    tadd x (constT b nn c 0) = x := by
  obtain ⟨h1, h2⟩ := (hasDims_iff x b nn c).mp h
  clear h
  subst h1
  induction x with
  | nil => simp [tadd, constT]
  | cons mt t ih =>
    simp only [List.length_cons, constT, List.replicate_succ, tadd, List.zipWith_cons_cons]
    have hmt := h2 mt (by simp)
    rw [madd_replicate_zero mt nn c hmt.1 hmt.2]
    simp only [tadd, constT] at ih
    rw [ih (fun mt hmt => h2 mt (by simp [hmt]))]

theorem tsmul_const_zero (w : ℚ) (b nn c : Nat) :
    tsmul w (constT b nn c 0) = constT b nn c 0 := by
  simp [tsmul, constT, List.map_replicate, zero_mul]

theorem flatMap_range_const {α : Type} (a b : Nat) (f : Nat → Nat → α) (x : α)
    (h : ∀ i < a, ∀ j < b, f i j = x) :
    (List.range a).flatMap (fun i => (List.range b).map (f i)) =
      List.replicate (a * b) x := by
  induction a with
  | zero => simp
  | succ a ih =>
    rw [List.range_succ, List.flatMap_append, ih (fun i hi j hj => h i (by omega) j hj)]
    have hlast : (List.range b).map (f a) = List.replicate b x := by
      refine List.eq_replicate_iff.mpr ⟨by simp, ?_⟩
      intro y hy
      obtain ⟨j, hj, rfl⟩ := List.mem_map.mp hy
      exact h a (by omega) j (List.mem_range.mp hj)
    simp only [List.flatMap_cons, List.flatMap_nil, List.append_nil]
    rw [hlast, Nat.succ_mul, List.replicate_add]

theorem getD_replicate_of_lt {α : Type} (nn : Nat) (a d : α) (i : Nat) (h : i < nn) :
    (List.replicate nn a).getD i d = a := by
  rw [List.getD_eq_getElem?_getD, List.getElem?_replicate, if_pos h]
  rfl

theorem mul_div_lt_of_lt (i d H : Nat) (hi : i < d) (hdH : d ≤ H) : i * H / d < H := by
  have hd : 0 < d := Nat.lt_of_le_of_lt (Nat.zero_le i) hi
  have hH : 0 < H := Nat.lt_of_lt_of_le hd hdH
  rw [Nat.div_lt_iff_lt_mul hd]
  calc i * H < d * H := by exact Nat.mul_lt_mul_of_lt_of_le hi (Nat.le_refl H) hH
  _ = H * d := Nat.mul_comm d H

/-- Nearest-neighbour downsampling of a constant mask yields the constant
tensor over the downsampled grid. -/
theorem maskDownsample_const (H W dsr B C : Nat) (q : ℚ) :
    maskDownsample (List.replicate H (List.replicate W q)) dsr B C =
      constT B (H / (8 * dsr) * (W / (8 * dsr))) C q := by
  cases H with
  | zero => simp [maskDownsample, constT, Nat.zero_div]
  | succ h =>
    have hlen : (List.replicate (h + 1) (List.replicate W q)).length = h + 1 := by simp
    have hhead : (List.replicate (h + 1) (List.replicate W q)).headD [] =
        List.replicate W q := by simp [List.replicate_succ]
    simp only [maskDownsample, hlen, hhead, List.length_replicate]
    have hflat : (List.range ((h + 1) / (8 * dsr))).flatMap (fun i =>
        (List.range (W / (8 * dsr))).map (fun j =>
          ((List.replicate (h + 1) (List.replicate W q)).getD
            (i * (h + 1) / ((h + 1) / (8 * dsr))) []).getD
            (j * W / (W / (8 * dsr))) 0)) =
        List.replicate ((h + 1) / (8 * dsr) * (W / (8 * dsr))) q := by
      apply flatMap_range_const
      intro i hi j hj
      have hiH : i * (h + 1) / ((h + 1) / (8 * dsr)) < h + 1 :=
        mul_div_lt_of_lt i ((h + 1) / (8 * dsr)) (h + 1) hi (Nat.div_le_self _ _)
      have hjW : j * W / (W / (8 * dsr)) < W :=
        mul_div_lt_of_lt j (W / (8 * dsr)) W hj (Nat.div_le_self _ _)
      rw [getD_replicate_of_lt _ _ _ _ hiH, getD_replicate_of_lt _ _ _ _ hjW]
    rw [hflat]
    simp [constT, List.map_replicate]

/-- C5: under the precondition that the spatial mask downsamples evenly to the
layer's attention grid (nonzero integer rate whose downsampled grid has
exactly the attention token count, with well-formed attention shapes), a mask
of all ones makes the patch output equal the unmasked injected output, and a
mask of all zeros makes the patch output equal the baseline attention alone —
the adapter contribution is nulled regardless of weight. -/
theorem C5_mask_ones_zeros (attn : T3 → T3 → T3 → T3) (w : ℚ) (kvs : List Mat)
    (dt : DType) (num : Nat) (cond uncond : T3) (n : Tensor) (ck cv : T3)
    (cu : List Nat) (H W B N C dsr : Nat)
    (hcu : cu ≠ [])
    (hB : hasDims (attn n.data ck cv) B N C = true)
    (hI : hasDims (attn n.data
            (linT3 (kvs.getD (num * 2) [])
              (selectTokens cond uncond (n.data.length / cu.length) cu))
            (linT3 (kvs.getD (num * 2 + 1) [])
              (selectTokens cond uncond (n.data.length / cu.length) cu))) B N C = true)
    (hBpos : 0 < B) (hNpos : 0 < N)
    (hdsr : intSqrt (H * W / 64 / N) = dsr) (hdsr0 : dsr ≠ 0)
    (heven : H / (8 * dsr) * (W / (8 * dsr)) = N) :
    (CrossAttentionPatch.call attn
        (CrossAttentionPatch.init w kvs dt num cond uncond
          (some (List.replicate H (List.replicate W 1)))) n ck cv cu =
      CrossAttentionPatch.call attn
        (CrossAttentionPatch.init w kvs dt num cond uncond none) n ck cv cu) ∧
    (CrossAttentionPatch.call attn
        (CrossAttentionPatch.init w kvs dt num cond uncond
          (some (List.replicate H (List.replicate W 0)))) n ck cv cu =
      some ⟨attn n.data ck cv, n.dtype⟩) := by
  have hd := dims_of_hasDims (attn n.data ck cv) B N C hB hBpos hNpos
  have hHd : 0 < H / (8 * dsr) := by
    rcases Nat.eq_zero_or_pos (H / (8 * dsr)) with h | h
    · rw [h, Nat.zero_mul] at heven
      omega
    · exact h
  have hWd : 0 < W / (8 * dsr) := by
    rcases Nat.eq_zero_or_pos (W / (8 * dsr)) with h | h
    · rw [h, Nat.mul_zero] at heven
      omega
    · exact h
  have H0 : 0 < H := Nat.lt_of_lt_of_le hHd (Nat.div_le_self H (8 * dsr))
  have hhead1 : (List.replicate H (List.replicate W (1 : ℚ))).headD [] =
      List.replicate W 1 := by
    cases H with
    | zero => exact absurd H0 (lt_irrefl 0)
    | succ h => simp [List.replicate_succ]
  have hhead0 : (List.replicate H (List.replicate W (0 : ℚ))).headD [] =
      List.replicate W 0 := by
    cases H with
    | zero => exact absurd H0 (lt_irrefl 0)
    | succ h => simp [List.replicate_succ]
  constructor
  · rw [call_init_eq attn w kvs dt num cond uncond
        (some (List.replicate H (List.replicate W 1))) n ck cv cu hcu,
      call_init_eq attn w kvs dt num cond uncond none n ck cv cu hcu]
    simp only [List.length_replicate, hhead1, hd.1, hd.2.1, hd.2.2, hdsr]
    rw [if_neg hdsr0]
    rw [maskDownsample_const, heven, tmul_const_one _ _ _ _ hI]
  · rw [call_init_eq attn w kvs dt num cond uncond
        (some (List.replicate H (List.replicate W 0))) n ck cv cu hcu]
    simp only [List.length_replicate, hhead0, hd.1, hd.2.1, hd.2.2, hdsr]
    rw [if_neg hdsr0]
    rw [maskDownsample_const, heven, tmul_const_zero _ _ _ _ hI, tsmul_const_zero,
      tadd_const_zero _ _ _ _ hB]

theorem C5_witness :
    (intSqrt (8 * 8 / 64 / 1) = 1) ∧
    ((CrossAttentionPatch.call (fun _ _ _ => ([[[2]]] : T3))
        (CrossAttentionPatch.init 3 [] DType.fp32 0 [] []
          (some (List.replicate 8 (List.replicate 8 1))))
        ⟨[[[5]]], DType.fp32⟩ [] [] [0] =
      CrossAttentionPatch.call (fun _ _ _ => ([[[2]]] : T3))
        (CrossAttentionPatch.init 3 [] DType.fp32 0 [] [] none)
        ⟨[[[5]]], DType.fp32⟩ [] [] [0]) ∧
    (CrossAttentionPatch.call (fun _ _ _ => ([[[2]]] : T3))
        (CrossAttentionPatch.init 3 [] DType.fp32 0 [] []
          (some (List.replicate 8 (List.replicate 8 0))))
        ⟨[[[5]]], DType.fp32⟩ [] [] [0] =
      some ⟨[[[2]]], DType.fp32⟩)) :=
  ⟨by decide,
    C5_mask_ones_zeros (fun _ _ _ => [[[2]]]) 3 [] DType.fp32 0 [] []
      ⟨[[[5]]], DType.fp32⟩ [] [] [0] 8 8 1 1 1 1
      (by decide) (by decide) (by decide) (by decide) (by decide) (by decide)
      (by decide) (by decide)⟩

/-- Split a flat list into consecutive chunks of size `k` — `torch.reshape`'s
row-major regrouping (the uses below always divide evenly). -/
def chunkList (k : Nat) (xs : List ℚ) : List (List ℚ) :=
  if h : k = 0 ∨ xs = [] then []
  else xs.take k :: chunkList k (xs.drop k)
termination_by xs.length
decreasing_by
  push_neg at h
  have h1 : xs.length ≠ 0 := fun hc => h.2 (List.length_eq_zero.mp hc)
  simp only [List.length_drop]
  omega

theorem chunkList_flatten (k : Nat) (hk : 0 < k) (l : List (List ℚ))
    (h : ∀ r ∈ l, r.length = k) : chunkList k l.flatten = l := by
  induction l with
  | nil => simp [chunkList]
  | cons r t ih =>
    have hr : r.length = k := h r (by simp)
    have hne : r ++ t.flatten ≠ [] := by
      intro hc
      have hre : r = [] := (List.append_eq_nil.mp hc).1
      rw [hre] at hr
      simp at hr
      omega
    rw [List.flatten_cons, chunkList,
      dif_neg (not_or.mpr ⟨by omega, hne⟩)]
    rw [← hr, List.take_left, List.drop_left]
    rw [hr, ih (fun r hrm => h r (by simp [hrm]))]

theorem chunkList_spec (k : Nat) (hk : 0 < k) :
    ∀ (t : Nat) (xs : List ℚ), xs.length = t * k →
      (chunkList k xs).length = t ∧ ∀ c ∈ chunkList k xs, c.length = k := by
  intro t
  induction t with
  | zero =>
    intro xs hx
    have hxe : xs = [] := List.length_eq_zero.mp (by simpa using hx)
    subst hxe
    simp [chunkList]
  | succ t ih =>
    intro xs hx
    have hpos : 0 < (t + 1) * k := Nat.mul_pos (Nat.succ_pos t) hk
    have hxne : xs ≠ [] := by
      intro hc
      subst hc
      rw [List.length_nil] at hx
      exact (Nat.ne_of_gt hpos) hx.symm
    have hlen : k ≤ xs.length := by
      rw [hx, Nat.succ_mul]
      exact Nat.le_add_left k (t * k)
    have hdrop : (xs.drop k).length = t * k := by
      rw [List.length_drop, hx, Nat.succ_mul, Nat.add_sub_cancel]
    rw [chunkList, dif_neg (not_or.mpr ⟨by omega, hxne⟩)]
    constructor
    · simp only [List.length_cons, (ih (xs.drop k) hdrop).1]
    · intro c hc
      rcases List.mem_cons.mp hc with rfl | hcm
      · simp [List.length_take, Nat.min_eq_left hlen]
      · exact (ih (xs.drop k) hdrop).2 c hcm

/-- Model of `torch.nn.LayerNorm(d)` over the last dimension: center by the mean, scale
by the inverse square root of the (biased) variance, then apply the learned
affine γ/β.  The irrational `1/sqrt(variance + eps)` is supplied by the caller
as `rsqrtVar`, keeping the model in exact rational arithmetic. -/
def layerNorm (rsqrtVar : ℚ → ℚ) (gamma bias x : Vec) : Vec :=
  let mu := x.sum / (x.length : ℚ)
  let variance := (x.map (fun a => (a - mu) * (a - mu))).sum / (x.length : ℚ)
  List.zipWith (fun s bv => s + bv)
    (List.zipWith (fun gv av => gv * av) gamma
      (x.map (fun a => (a - mu) * rsqrtVar variance)))
    bias

/-- Model of `ImageProjModel.__init__`: `proj = Linear(clip_embeddings_dim,
clip_extra_context_tokens * cross_attention_dim)` and
`norm = LayerNorm(cross_attention_dim)`. -/
structure ImageProjModel where
  cross_attention_dim : Nat
  clip_extra_context_tokens : Nat
  proj_weight : Mat
  proj_bias : Vec
  norm_weight : Vec
  norm_bias : Vec

/-- Model of `ImageProjModel.forward`: `self.norm(self.proj(embeds).reshape(-1,
self.clip_extra_context_tokens, self.cross_attention_dim))` — `reshape(-1, t,
d)` flattens the (batch, t*d) projection row-major and regroups it into
inferred-batch × t × d. -/
def ImageProjModel.forward (rsqrtVar : ℚ → ℚ) (m : ImageProjModel)
    (image_embeds : Mat) : T3 :=
  let projected := image_embeds.map (fun row => linear m.proj_weight m.proj_bias row)
  let reshaped := (chunkList (m.clip_extra_context_tokens * m.cross_attention_dim)
      projected.flatten).map (fun grp => chunkList m.cross_attention_dim grp)
  reshaped.map (fun seq => seq.map (fun tok => layerNorm rsqrtVar m.norm_weight m.norm_bias tok))

/-- Spec-side comparator, written from the spec's words: linear map to
`num_tokens * cross_attention_dim`, reshape to (batch, num_tokens,
cross_attention_dim), then layer-normalize over the last dimension. -/
def specProject (rsqrtVar : ℚ → ℚ) (m : ImageProjModel) (image_embeds : Mat) : T3 :=
  image_embeds.map (fun row =>
    (chunkList m.cross_attention_dim (linear m.proj_weight m.proj_bias row)).map
      (fun tok => layerNorm rsqrtVar m.norm_weight m.norm_bias tok))

theorem linear_length (w : Mat) (b x : Vec) :
    (linear w b x).length = min w.length b.length := by
  simp [linear]

theorem layerNorm_length (rsqrtVar : ℚ → ℚ) (gamma bias x : Vec)
    (hg : gamma.length = x.length) (hb : bias.length = x.length) :
    (layerNorm rsqrtVar gamma bias x).length = x.length := by
  simp [layerNorm, hg, hb]

/-- C7: on a (batch, embed_dim) input the shallow Embedding Projector computes
exactly LayerNorm(reshape(Linear(raw_embedding), (batch, num_tokens,
cross_attention_dim))) with the normalization over the last dimension, and the
output has shape (batch, num_tokens, cross_attention_dim). -/
theorem C7_shallow_projector (rsqrtVar : ℚ → ℚ) (m : ImageProjModel) (x : Mat)
    (hw : m.proj_weight.length = m.clip_extra_context_tokens * m.cross_attention_dim)
    (hb : m.proj_bias.length = m.clip_extra_context_tokens * m.cross_attention_dim)
    (hgamma : m.norm_weight.length = m.cross_attention_dim)
    (hbias : m.norm_bias.length = m.cross_attention_dim)
    (ht : 0 < m.clip_extra_context_tokens) (hd : 0 < m.cross_attention_dim) :
    m.forward rsqrtVar x = specProject rsqrtVar m x ∧
    hasDims (m.forward rsqrtVar x) x.length m.clip_extra_context_tokens
      m.cross_attention_dim = true := by
  have hrow : ∀ row ∈ x.map (fun row => linear m.proj_weight m.proj_bias row),
      row.length = m.clip_extra_context_tokens * m.cross_attention_dim := by
    intro r hr
    obtain ⟨row, hrm, rfl⟩ := List.mem_map.mp hr
    simp [linear_length, hw, hb]
  have hflat : chunkList (m.clip_extra_context_tokens * m.cross_attention_dim)
      (x.map (fun row => linear m.proj_weight m.proj_bias row)).flatten =
      x.map (fun row => linear m.proj_weight m.proj_bias row) :=
    chunkList_flatten _ (Nat.mul_pos ht hd) _ hrow
  have heq : m.forward rsqrtVar x = specProject rsqrtVar m x := by
    simp only [ImageProjModel.forward, specProject, hflat, List.map_map]
    rfl
  refine ⟨heq, ?_⟩
  rw [heq]
  apply (hasDims_iff _ _ _ _).mpr
  refine ⟨by simp [specProject], ?_⟩
  intro mt hmt
  obtain ⟨row, hrm, rfl⟩ := List.mem_map.mp hmt
  have hlin : (linear m.proj_weight m.proj_bias row).length =
      m.clip_extra_context_tokens * m.cross_attention_dim := by
    simp [linear_length, hw, hb]
  have hcs := chunkList_spec m.cross_attention_dim hd m.clip_extra_context_tokens
    (linear m.proj_weight m.proj_bias row) hlin
  constructor
  · simp [hcs.1]
  · intro r hrmem
    obtain ⟨c, hc, rfl⟩ := List.mem_map.mp hrmem
    have hcd : c.length = m.cross_attention_dim := hcs.2 c hc
    rw [layerNorm_length]
    · exact hcd
    · rw [hgamma, hcd]
    · rw [hbias, hcd]

theorem C7_witness :
    (([[(2 : ℚ)]] : Mat).length = 1 * 1) ∧
    (ImageProjModel.forward (fun _ => 1) ⟨1, 1, [[2]], [0], [1], [0]⟩ [[3]] =
        specProject (fun _ => 1) ⟨1, 1, [[2]], [0], [1], [0]⟩ [[3]] ∧
      hasDims (ImageProjModel.forward (fun _ => 1) ⟨1, 1, [[2]], [0], [1], [0]⟩ [[3]])
        ([[(3 : ℚ)]] : Mat).length 1 1 = true) :=
  ⟨by decide,
    C7_shallow_projector (fun _ => 1) ⟨1, 1, [[2]], [0], [1], [0]⟩ [[3]]
      (by decide) (by decide) (by decide) (by decide) (by decide) (by decide)⟩
